import Mathlib

/-!
Verification of the coverage collection + report-synthesis engine of
`crates/devtools/coverage` (files `data.rs`, `collector.rs`, `map.rs`,
`report.rs`).

Modelling conventions:
* Rust `u64`/`u32`/`u8`/`usize` counters, ids, line numbers and kinds are
  modelled as `Nat`.  None of the verified operations relies on wrap-around
  (Rust panics on overflow in debug builds), so no modular reduction is
  applied.
* `std::collections::HashMap<u64, ProbeHit>` inside `CoverageData` is
  modelled extensionally by its lookup function `Nat → Option ProbeHit`:
  every verified operation on it (`record_hit`, `get_hit_count`, `merge`)
  reads or writes entries key-by-key, so the per-key translation below is
  exact.
* `HashMap<u64, ProbeLocation>` inside `CoverageMap` is iterated by the
  report synthesizer, and a Rust `HashMap`'s iteration order is
  unspecified.  It is therefore modelled as the list of its entries *in
  iteration order*; theorems quantifying over all such lists cover every
  order the `HashMap` may produce.
* The process-wide atomic `enabled` flag plus the thread-local
  `CoverageData` of the current thread are bundled into one explicit
  `CollectorState`; each collector function is state-passing.  Wall-clock
  reads (`current_time_millis`) become explicit `now` parameters.
-/

/-! ## Probe kinds (`data.rs`, `mod probe_kind`) -/

def probe_kind.LINE : Nat := 0

def probe_kind.FUNCTION_ENTRY : Nat := 1

def probe_kind.BRANCH_TRUE : Nat := 2

def probe_kind.BRANCH_FALSE : Nat := 3

/-! ## Coverage data (`data.rs`) -/

/-- A single probe hit record (`ProbeHit`). -/
structure ProbeHit where
  probe_id : Nat
  kind : Nat
  count : Nat
deriving DecidableEq, Repr

/-- `ProbeHit::new`: a new probe hit with count 1. -/
def ProbeHit.new (probe_id kind : Nat) : ProbeHit :=
  { probe_id := probe_id, kind := kind, count := 1 }

/-- Collected coverage data from a run (`CoverageData`); the `probe_hits`
`HashMap` is modelled by its lookup function. -/
structure CoverageData where
  probe_hits : Nat → Option ProbeHit
  start_time : Nat
  end_time : Nat

/-- `CoverageData::new` (`current_time_millis()` passed in as `now`). -/
def CoverageData.new (now : Nat) : CoverageData :=
  { probe_hits := fun _ => none, start_time := now, end_time := 0 }

/-- `CoverageData::record_hit`: `entry(probe_id).and_modify(count += 1)
.or_insert_with(ProbeHit::new)`. -/
def CoverageData.record_hit (d : CoverageData) (probe_id kind : Nat) :
    CoverageData :=
  { d with
    probe_hits := fun p =>
      if p = probe_id then
        match d.probe_hits probe_id with
        | some hit => some { hit with count := hit.count + 1 }
        | none => some (ProbeHit.new probe_id kind)
      else d.probe_hits p }

/-- `CoverageData::get_hit_count`: `probe_hits.get(&probe_id).map_or(0, |h| h.count)`. -/
def CoverageData.get_hit_count (d : CoverageData) (probe_id : Nat) : Nat :=
  match d.probe_hits probe_id with
  | some h => h.count
  | none => 0

/-- `CoverageData::finish`: stamp `end_time`. -/
def CoverageData.finish (d : CoverageData) (now : Nat) : CoverageData :=
  { d with end_time := now }

/-- `CoverageData::reset`: clear hits, restart the clock. -/
def CoverageData.reset (d : CoverageData) (now : Nat) : CoverageData :=
  { d with probe_hits := fun _ => none, start_time := now, end_time := 0 }

/-- `CoverageData::merge`: for every entry of `other`,
`entry(id).and_modify(h.count += hit.count).or_insert_with(hit.clone)`;
keys absent from `other` are untouched.  The loop touches each key at most
once, so its per-key effect is exactly the match below.  `start_time` and
`end_time` are extended to `min` / `max` by the two trailing `if`s. -/
def CoverageData.merge (d other : CoverageData) : CoverageData :=
  { probe_hits := fun p =>
      match other.probe_hits p with
      | none => d.probe_hits p
      | some hit =>
        match d.probe_hits p with
        | none => some hit
        | some h => some { h with count := h.count + hit.count }
    start_time :=
      if other.start_time < d.start_time then other.start_time else d.start_time
    end_time :=
      if other.end_time > d.end_time then other.end_time else d.end_time }

/-! ## Collector (`collector.rs`)

The process-wide `COVERAGE_ENABLED` atomic flag and the current thread's
`COVERAGE_DATA` cell form the state. -/

/-- The collector-visible state: the global `enabled` flag plus the
current context's thread-local `CoverageData`. -/
structure CollectorState where
  enabled : Bool
  data : CoverageData

/-- `collector::enable`. -/
def Collector.enable (s : CollectorState) : CollectorState :=
  { s with enabled := true }

/-- `collector::disable`. -/
def Collector.disable (s : CollectorState) : CollectorState :=
  { s with enabled := false }

/-- `collector::is_enabled`. -/
def Collector.is_enabled (s : CollectorState) : Bool :=
  s.enabled

/-- `collector::reset` (resets only the current context's data). -/
def Collector.reset (now : Nat) (s : CollectorState) : CollectorState :=
  { s with data := s.data.reset now }

/-- `collector::export_coverage`: `finish` the live data and return a
clone of it; the live copy keeps accumulating. -/
def Collector.export_coverage (now : Nat) (s : CollectorState) :
    CoverageData × CollectorState :=
  let d := s.data.finish now
  (d, { s with data := d })

/-- `collector::record_hit`: if the flag is clear this is a no-op,
otherwise the hit is recorded into the current context's data. -/
def Collector.record_hit (probe_id kind : Nat) (s : CollectorState) :
    CollectorState :=
  if s.enabled then { s with data := s.data.record_hit probe_id kind } else s

/-- `n` consecutive `collector::record_hit` calls for the same probe. -/
def Collector.recordN (probe_id kind : Nat) : Nat → CollectorState → CollectorState
  | 0, s => s
  | n + 1, s => Collector.record_hit probe_id kind (Collector.recordN probe_id kind n s)

/-- `CoverageGuard`: RAII guard for scoped coverage collection. -/
structure CoverageGuard where
  was_enabled : Bool
deriving DecidableEq, Repr

/-- `CoverageGuard::new`: capture the current flag, then force-enable. -/
def CoverageGuard.new (s : CollectorState) : CoverageGuard × CollectorState :=
  let w := Collector.is_enabled s
  ({ was_enabled := w }, Collector.enable s)

/-- `CoverageGuard::new_fresh`: `reset()` then `Self::new()`. -/
def CoverageGuard.new_fresh (now : Nat) (s : CollectorState) :
    CoverageGuard × CollectorState :=
  CoverageGuard.new (Collector.reset now s)

/-- `impl Drop for CoverageGuard`: disable only if the flag was clear at
construction time. -/
def CoverageGuard.drop (g : CoverageGuard) (s : CollectorState) : CollectorState :=
  if !g.was_enabled then Collector.disable s else s

/-! ## Coverage map (`map.rs`) -/

/-- `ProbeLocation`. -/
structure ProbeLocation where
  line : Nat
  column : Nat
  kind : Nat
  function : Option String
  file : String
deriving DecidableEq, Repr

/-- `FunctionInfo`. -/
structure FunctionInfo where
  name : String
  start_line : Nat
  end_line : Nat
  entry_probe : Nat
deriving DecidableEq, Repr

/-- `CoverageMap`.  The `probes : HashMap<u64, ProbeLocation>` field is
modelled as the list of its entries in the `HashMap`'s iteration order;
that order is unspecified by Rust, so theorems below quantify over all
entry lists. -/
structure CoverageMap where
  probes : List (Nat × ProbeLocation)
  functions : List FunctionInfo
  file : String
  total_probes : Nat
deriving DecidableEq, Repr

/-- `CoverageMap::line_probes`: the probes iterator filtered to kind `LINE`. -/
def CoverageMap.line_probes (m : CoverageMap) : List (Nat × ProbeLocation) :=
  m.probes.filter (fun pl => pl.2.kind == probe_kind.LINE)

/-- `CoverageMap::branch_probes`: the probes iterator filtered to the two
branch kinds. -/
def CoverageMap.branch_probes (m : CoverageMap) : List (Nat × ProbeLocation) :=
  m.probes.filter (fun pl =>
    pl.2.kind == probe_kind.BRANCH_TRUE || pl.2.kind == probe_kind.BRANCH_FALSE)

/-! ## Coverage report (`report.rs`) -/

/-- `LineCoverage`. -/
structure LineCoverage where
  line : Nat
  hit_count : Nat
  covered : Bool
deriving DecidableEq, Repr

/-- `FunctionCoverage`. -/
structure FunctionCoverage where
  name : String
  start_line : Nat
  end_line : Nat
  hit_count : Nat
  covered : Bool
deriving DecidableEq, Repr

/-- `BranchCoverage`. -/
structure BranchCoverage where
  line : Nat
  branch_index : Nat
  true_count : Nat
  false_count : Nat
  fully_covered : Bool
deriving DecidableEq, Repr

/-- `CoverageSummary`. -/
structure CoverageSummary where
  total_lines : Nat
  covered_lines : Nat
  total_functions : Nat
  covered_functions : Nat
  total_branches : Nat
  covered_branches : Nat
deriving DecidableEq, Repr

/-- `CoverageSummary::default()`: all six counters zero. -/
def CoverageSummary.default : CoverageSummary :=
  { total_lines := 0, covered_lines := 0, total_functions := 0
    covered_functions := 0, total_branches := 0, covered_branches := 0 }

/-- `CoverageSummary::line_percent`.  The `f64` result is modelled in `ℚ`;
the zero-total branch returns the literal constant `100.0`, where no
floating-point arithmetic happens. -/
def CoverageSummary.line_percent (s : CoverageSummary) : ℚ :=
  if s.total_lines = 0 then 100
  else (s.covered_lines : ℚ) / (s.total_lines : ℚ) * 100

/-- `CoverageSummary::function_percent`. -/
def CoverageSummary.function_percent (s : CoverageSummary) : ℚ :=
  if s.total_functions = 0 then 100
  else (s.covered_functions : ℚ) / (s.total_functions : ℚ) * 100

/-- `CoverageSummary::branch_percent`. -/
def CoverageSummary.branch_percent (s : CoverageSummary) : ℚ :=
  if s.total_branches = 0 then 100
  else (s.covered_branches : ℚ) / (s.total_branches : ℚ) * 100

/-- `CoverageSummary::merge`: field-wise addition of all six counters. -/
def CoverageSummary.merge (s other : CoverageSummary) : CoverageSummary :=
  { total_lines := s.total_lines + other.total_lines
    covered_lines := s.covered_lines + other.covered_lines
    total_functions := s.total_functions + other.total_functions
    covered_functions := s.covered_functions + other.covered_functions
    total_branches := s.total_branches + other.total_branches
    covered_branches := s.covered_branches + other.covered_branches }

/-- `CoverageReport`.  The `lines : BTreeMap<u32, LineCoverage>` field is
modelled as an association list; the synthesizer below inserts each line
number exactly once, and no verified property depends on the `BTreeMap`'s
sorted traversal order. -/
structure CoverageReport where
  file : String
  lines : List (Nat × LineCoverage)
  functions : List FunctionCoverage
  branches : List BranchCoverage
  summary : CoverageSummary
deriving DecidableEq, Repr

/-- Association-list lookup, the model of `HashMap::get` / `BTreeMap::get`
for `Nat` keys. -/
def assocLookup {α : Type} : List (Nat × α) → Nat → Option α
  | [], _ => none
  | (k, v) :: rest, key => if k = key then some v else assocLookup rest key

/-- The model of `line_hits.entry(line).and_modify(|c| *c = (*c).max(count))
.or_insert(count)` on the association-list view of the `HashMap`. -/
def updMax : List (Nat × Nat) → Nat → Nat → List (Nat × Nat)
  | [], line, count => [(line, count)]
  | (l, c) :: rest, line, count =>
    if l = line then (l, max c count) :: rest
    else (l, c) :: updMax rest line count

/-- The `line_hits` accumulation loop of `CoverageReport::from_map_and_data`:
fold over `map.line_probes()`, keeping the per-line maximum hit count. -/
def lineHits (m : CoverageMap) (d : CoverageData) : List (Nat × Nat) :=
  m.line_probes.foldl
    (fun acc p => updMax acc p.2.line (d.get_hit_count p.1)) []

/-- The model of `branch_map.entry(line).or_default().push((id, kind))`. -/
def pushEntry : List (Nat × List (Nat × Nat)) → Nat → (Nat × Nat) →
    List (Nat × List (Nat × Nat))
  | [], line, x => [(line, [x])]
  | (l, g) :: rest, line, x =>
    if l = line then (l, g ++ [x]) :: rest
    else (l, g) :: pushEntry rest line x

/-- The `branch_map` accumulation loop of `from_map_and_data`: group the
branch probes `(id, kind)` by line. -/
def branchMap (m : CoverageMap) : List (Nat × List (Nat × Nat)) :=
  m.branch_probes.foldl
    (fun acc p => pushEntry acc p.2.line (p.1, p.2.kind)) []

/-- The inner `for (idx, (true_probe, _)) in true_probes.iter().enumerate()`
loop: one `BranchCoverage` per true probe, false side from
`false_probes.get(idx)` (0 when absent). -/
def pairBranches (d : CoverageData) (line : Nat) (fps : List (Nat × Nat)) :
    List (Nat × Nat) → Nat → List BranchCoverage
  | [], _ => []
  | tp :: tps, idx =>
    let true_count := d.get_hit_count tp.1
    let false_count :=
      match fps[idx]? with
      | some fp => d.get_hit_count fp.1
      | none => 0
    { line := line, branch_index := idx, true_count := true_count
      false_count := false_count
      fully_covered := decide (true_count > 0) && decide (false_count > 0) }
      :: pairBranches d line fps tps (idx + 1)

/-- The per-line body of the branch loop: split the line's group into the
true-probe and false-probe subsequences, then pair positionally. -/
def branchesForLine (d : CoverageData) (line : Nat) (probes : List (Nat × Nat)) :
    List BranchCoverage :=
  let true_probes := probes.filter (fun q => q.2 == probe_kind.BRANCH_TRUE)
  let false_probes := probes.filter (fun q => q.2 == probe_kind.BRANCH_FALSE)
  pairBranches d line false_probes true_probes 0

/-- The outer `for (line, probes) in branch_map` loop, flattened in
iteration order. -/
def branchList (d : CoverageData) : List (Nat × List (Nat × Nat)) →
    List BranchCoverage
  | [] => []
  | (line, g) :: rest => branchesForLine d line g ++ branchList d rest

/-- `CoverageReport::calculate_summary` (as a function of the three
collections it reads). -/
def calcSummary (lines : List (Nat × LineCoverage))
    (functions : List FunctionCoverage) (branches : List BranchCoverage) :
    CoverageSummary :=
  { total_lines := lines.length
    covered_lines := (lines.filter (fun l => l.2.covered)).length
    total_functions := functions.length
    covered_functions := (functions.filter (fun f => f.covered)).length
    total_branches := branches.length
    covered_branches := (branches.filter (fun b => b.fully_covered)).length }

/-- `CoverageReport::from_map_and_data`. -/
def CoverageReport.from_map_and_data (m : CoverageMap) (d : CoverageData) :
    CoverageReport :=
  let lines := (lineHits m d).map (fun lc =>
    (lc.1, { line := lc.1, hit_count := lc.2
             covered := decide (lc.2 > 0) : LineCoverage }))
  let functions := m.functions.map (fun f =>
    let hit_count := d.get_hit_count f.entry_probe
    { name := f.name, start_line := f.start_line, end_line := f.end_line
      hit_count := hit_count, covered := decide (hit_count > 0) : FunctionCoverage })
  let branches := branchList d (branchMap m)
  { file := m.file, lines := lines, functions := functions, branches := branches
    summary := calcSummary lines functions branches }

/-- `CoverageReport::is_line_covered`. -/
def CoverageReport.is_line_covered (r : CoverageReport) (line : Nat) : Option Bool :=
  (assocLookup r.lines line).map (fun l => l.covered)

/-- `CoverageReport::line_hit_count`. -/
def CoverageReport.line_hit_count (r : CoverageReport) (line : Nat) : Option Nat :=
  (assocLookup r.lines line).map (fun l => l.hit_count)

/-- `aggregate_summaries`: fold all reports' summaries left-to-right with
`CoverageSummary::merge`, starting from `default`. -/
def aggregate_summaries (reports : List CoverageReport) : CoverageSummary :=
  reports.foldl (fun acc r => acc.merge r.summary) CoverageSummary.default

/-! ## JSON serialization of coverage maps

`CoverageMap::to_json` / `from_json` delegate to `serde_json` and the
`#[derive(Serialize, Deserialize)]` code, which is generated outside
`src/`.  The codec is therefore modelled from the spec's schema (§6). -/

/-- A JSON value; objects keep their fields as an ordered list. -/
inductive Json where
  | null : Json
  | num (n : Nat) : Json
  | str (s : String) : Json
  | arr (elems : List Json) : Json
  | obj (fields : List (String × Json)) : Json

/-- The character for one decimal digit (codepoint 48 + value). -/
def digitChar (d : Nat) : Char :=
  Char.ofNat (48 + d)

/-- Inverse of `digitChar` on actual digit characters. -/
def charDigit (c : Char) : Option Nat :=
  if 48 ≤ c.toNat ∧ c.toNat ≤ 57 then some (c.toNat - 48) else none

/-- Modelled from the spec: the decimal rendering of a `u64` probe id used
as a JSON object key (schema §6 keys probe entries by `"<probe_id>"`). -/
def natRepr (n : Nat) : String :=
  if n = 0 then "0"
  else { data := ((Nat.digits 10 n).map digitChar).reverse }

/-- Modelled from the spec: parsing a decimal string back to a `u64`
probe id; any non-digit character or an empty string is a parse failure. -/
def natParse (s : String) : Option Nat :=
  if s.data = [] then none
  else (mapMOpt charDigit s.data).map (fun ds => Nat.ofDigits 10 ds.reverse)
where
  /-- Apply a fallible decoder to every element, failing on any failure. -/
  mapMOpt {α β : Type} (f : α → Option β) : List α → Option (List β)
    | [] => some []
    | x :: xs =>
      match f x, mapMOpt f xs with
      | some y, some ys => some (y :: ys)
      | _, _ => none

/-- Modelled from the spec: serialization of one probe location per the
schema `{"line":u32,"column":u32,"kind":0|1|2|3,"function":string|null,
"file":string}`. -/
def ProbeLocation.toJson (loc : ProbeLocation) : Json :=
  .obj [("line", .num loc.line), ("column", .num loc.column),
        ("kind", .num loc.kind),
        ("function", match loc.function with
                     | some f => .str f
                     | none => .null),
        ("file", .str loc.file)]

/-- Modelled from the spec: parsing one probe location; any shape other
than the schema's is a parse failure. -/
def ProbeLocation.fromJson : Json → Option ProbeLocation
  | .obj [("line", .num line), ("column", .num column), ("kind", .num kind),
          ("function", jfun), ("file", .str file)] =>
    match jfun with
    | .null => some { line := line, column := column, kind := kind
                      function := none, file := file }
    | .str f => some { line := line, column := column, kind := kind
                       function := some f, file := file }
    | _ => none
  | _ => none

/-- Modelled from the spec: serialization of one function entry per the
schema `{"name":string,"start_line":u32,"end_line":u32,"entry_probe":u64}`. -/
def FunctionInfo.toJson (f : FunctionInfo) : Json :=
  .obj [("name", .str f.name), ("start_line", .num f.start_line),
        ("end_line", .num f.end_line), ("entry_probe", .num f.entry_probe)]

/-- Modelled from the spec: parsing one function entry. -/
def FunctionInfo.fromJson : Json → Option FunctionInfo
  | .obj [("name", .str name), ("start_line", .num start_line),
          ("end_line", .num end_line), ("entry_probe", .num entry_probe)] =>
    some { name := name, start_line := start_line, end_line := end_line
           entry_probe := entry_probe }
  | _ => none

/-- Modelled from the spec: `CoverageMap::to_json` — the schema object
`{"probes": {...}, "functions": [...], "file": ..., "total_probes": ...}`,
probes keyed by their decimal ids in map iteration order.  The text layer
(`serde_json`'s printer/lexer) is external; the model works on the JSON
value tree. -/
def CoverageMap.to_json (m : CoverageMap) : Json :=
  .obj [("probes", .obj (m.probes.map (fun p => (natRepr p.1, p.2.toJson)))),
        ("functions", .arr (m.functions.map FunctionInfo.toJson)),
        ("file", .str m.file),
        ("total_probes", .num m.total_probes)]

/-- Modelled from the spec: `CoverageMap::from_json`; a parse failure is
`none` (the source's `Err(CoverageError::ParseError)`). -/
def CoverageMap.from_json : Json → Option CoverageMap
  | .obj [("probes", .obj probeFields), ("functions", .arr funcElems),
          ("file", .str file), ("total_probes", .num total_probes)] =>
    match natParse.mapMOpt (fun kv =>
            match natParse kv.1, ProbeLocation.fromJson kv.2 with
            | some id, some loc => some (id, loc)
            | _, _ => none) probeFields,
          natParse.mapMOpt FunctionInfo.fromJson funcElems with
    | some probes, some functions =>
      some { probes := probes, functions := functions, file := file
             total_probes := total_probes }
    | _, _ => none
  | _ => none

/-! ## Spec-side definitions (used only in theorem statements) -/

/-- Spec-side: the maximum of a list of counts (`0` for the empty list). -/
def listMax (xs : List Nat) : Nat :=
  xs.foldr max 0

/-- Spec-side: the data's hit counts of the Line probes at `line`, in map
iteration order. -/
def lineCounts (m : CoverageMap) (d : CoverageData) (line : Nat) : List Nat :=
  (m.line_probes.filter (fun p => p.2.line == line)).map
    (fun p => d.get_hit_count p.1)

/-! ## Proof-internal helper functions -/

/-- Running value of the per-line maximum while folding probe entries. -/
def foldMaxAt (d : CoverageData) (line : Nat)
    (ps : List (Nat × ProbeLocation)) (v : Option Nat) : Option Nat :=
  ps.foldl
    (fun v p =>
      if p.2.line = line then
        some (match v with
              | some c => max c (d.get_hit_count p.1)
              | none => d.get_hit_count p.1)
      else v) v

/-- Number of true-branch probes stored under key `line` in a grouping. -/
def trueCountAt (line : Nat) : List (Nat × List (Nat × Nat)) → Nat
  | [] => 0
  | (l, g) :: rest =>
    (if l = line
     then (g.filter (fun q => q.2 == probe_kind.BRANCH_TRUE)).length
     else 0) + trueCountAt line rest

/-- Number of true-branch probes stored in a grouping, over all keys. -/
def trueCountTotal : List (Nat × List (Nat × Nat)) → Nat
  | [] => 0
  | (_, g) :: rest =>
    (g.filter (fun q => q.2 == probe_kind.BRANCH_TRUE)).length
      + trueCountTotal rest

/-! ## Concrete inputs used by witnesses and the branch-pairing analysis -/

/-- A branch-probe location at line 1 with the given kind. -/
def braLoc (kind : Nat) : ProbeLocation :=
  { line := 1, column := 1, kind := kind, function := none, file := "a.rsx" }

/-- A coverage map holding two true/false branch-probe pairs at line 1,
with the `HashMap` iterating its four probes as `[1, 2, 3, 4]`. -/
def braMapA : CoverageMap :=
  { probes := [(1, braLoc probe_kind.BRANCH_TRUE), (2, braLoc probe_kind.BRANCH_TRUE),
               (3, braLoc probe_kind.BRANCH_FALSE), (4, braLoc probe_kind.BRANCH_FALSE)]
    functions := [], file := "a.rsx", total_probes := 4 }

/-- The same `HashMap` contents iterated as `[2, 1, 3, 4]` — an equally
possible iteration order for the identical set of insertions. -/
def braMapB : CoverageMap :=
  { probes := [(2, braLoc probe_kind.BRANCH_TRUE), (1, braLoc probe_kind.BRANCH_TRUE),
               (3, braLoc probe_kind.BRANCH_FALSE), (4, braLoc probe_kind.BRANCH_FALSE)]
    functions := [], file := "a.rsx", total_probes := 4 }

/-- Coverage data in which probes 1 (true side) and 3 (false side) were
hit once each. -/
def braData : CoverageData :=
  ((CoverageData.new 0).record_hit 1 probe_kind.BRANCH_TRUE).record_hit 3
    probe_kind.BRANCH_FALSE

/-- A map with two Line probes on line 4 and one on line 9. -/
def wLineMap : CoverageMap :=
  { probes := [(1, { line := 4, column := 1, kind := probe_kind.LINE
                     function := none, file := "w.rsx" }),
               (2, { line := 4, column := 9, kind := probe_kind.LINE
                     function := none, file := "w.rsx" }),
               (3, { line := 9, column := 1, kind := probe_kind.LINE
                     function := none, file := "w.rsx" })]
    functions := [], file := "w.rsx", total_probes := 3 }

/-- Data hitting probe 1 twice and probe 2 five times. -/
def wLineData : CoverageData :=
  (((((((CoverageData.new 0).record_hit 1 probe_kind.LINE).record_hit
    1 probe_kind.LINE).record_hit 2 probe_kind.LINE).record_hit
    2 probe_kind.LINE).record_hit 2 probe_kind.LINE).record_hit
    2 probe_kind.LINE).record_hit 2 probe_kind.LINE

/-! # Theorems -/

/-! ## Helper lemmas about `CoverageData` -/

/-- Merged per-probe counts are the sums of the operand counts. -/
theorem get_hit_count_merge (a b : CoverageData) (p : Nat) :
    (a.merge b).get_hit_count p = a.get_hit_count p + b.get_hit_count p := by
  simp only [CoverageData.merge, CoverageData.get_hit_count]
  cases b.probe_hits p <;> cases a.probe_hits p <;> simp

/-- Recording a probe increments exactly its own count. -/
theorem get_hit_count_record_hit_self (d : CoverageData) (p k : Nat) :
    (d.record_hit p k).get_hit_count p = d.get_hit_count p + 1 := by
  unfold CoverageData.record_hit CoverageData.get_hit_count
  cases h : d.probe_hits p <;> simp [h, ProbeHit.new]

/-- Recording a probe leaves every other count unchanged. -/
theorem get_hit_count_record_hit_other (d : CoverageData) (p k q : Nat)
    (h : q ≠ p) : (d.record_hit p k).get_hit_count q = d.get_hit_count q := by
  unfold CoverageData.record_hit CoverageData.get_hit_count
  simp [h]

/-- `finish` never changes a count. -/
theorem get_hit_count_finish (d : CoverageData) (now q : Nat) :
    (d.finish now).get_hit_count q = d.get_hit_count q := rfl

/-- A fresh `CoverageData` has every count at zero. -/
theorem get_hit_count_new (now q : Nat) :
    (CoverageData.new now).get_hit_count q = 0 := rfl

/-- Behaviour of `Collector.recordN` on an enabled collector. -/
theorem recordN_enabled (p k : Nat) (n : Nat) (s : CollectorState)
    (he : s.enabled = true) :
    (Collector.recordN p k n s).enabled = true ∧
    (Collector.recordN p k n s).data.get_hit_count p
      = s.data.get_hit_count p + n ∧
    ∀ q, q ≠ p → (Collector.recordN p k n s).data.get_hit_count q
      = s.data.get_hit_count q := by
  induction n with
  | zero => exact ⟨he, rfl, fun q _ => rfl⟩
  | succ n ih =>
    obtain ⟨h1, h2, h3⟩ := ih
    refine ⟨?_, ?_, ?_⟩
    · simp [Collector.recordN, Collector.record_hit, h1]
    · simp [Collector.recordN, Collector.record_hit, h1,
        get_hit_count_record_hit_self, h2]
      omega
    · intro q hq
      simp [Collector.recordN, Collector.record_hit, h1,
        get_hit_count_record_hit_other _ _ _ _ hq, h3 q hq]

/-! ## C4, C5, C7, C8 -/

/-- **C4.** `CoverageData::merge` sums per-probe counts (a probe present in
only one operand keeps its count, the other side contributing 0), is
commutative and associative on per-probe counts, and combines the window as
`start_time = min`, `end_time = max`. -/
theorem merge_counts_sum_min_max (a b c : CoverageData) (p : Nat) :
    (a.merge b).get_hit_count p = a.get_hit_count p + b.get_hit_count p ∧
    (a.merge b).get_hit_count p = (b.merge a).get_hit_count p ∧
    ((a.merge b).merge c).get_hit_count p
      = (a.merge (b.merge c)).get_hit_count p ∧
    (a.merge b).start_time = min a.start_time b.start_time ∧
    (a.merge b).end_time = max a.end_time b.end_time := by
  refine ⟨get_hit_count_merge a b p, ?_, ?_, ?_, ?_⟩
  · rw [get_hit_count_merge, get_hit_count_merge]; omega
  · rw [get_hit_count_merge, get_hit_count_merge, get_hit_count_merge,
      get_hit_count_merge]
    omega
  · simp only [CoverageData.merge]
    split <;> omega
  · simp only [CoverageData.merge]
    split <;> omega

/-- **C5.** `collector::record_hit` on a disabled collector is a no-op: the
whole collector state (counts and all) is returned unchanged. -/
theorem record_hit_disabled_noop (probe_id kind : Nat) (s : CollectorState)
    (h : s.enabled = false) :
    Collector.record_hit probe_id kind s = s := by
  simp [Collector.record_hit, h]

/-- Witness for C5 at a concrete disabled state. -/
theorem record_hit_disabled_noop_witness :
    ({ enabled := false, data := CoverageData.new 0 } : CollectorState).enabled
      = false ∧
    Collector.record_hit 7 0 { enabled := false, data := CoverageData.new 0 }
      = { enabled := false, data := CoverageData.new 0 } :=
  ⟨rfl, record_hit_disabled_noop 7 0 _ rfl⟩

/-- **C7.** Every percentage accessor returns exactly 100 when its total
counter is zero (the zero-total branch returns the literal constant, so no
division is performed). -/
theorem percent_vacuous_full (s : CoverageSummary) :
    (s.total_lines = 0 → s.line_percent = 100) ∧
    (s.total_functions = 0 → s.function_percent = 100) ∧
    (s.total_branches = 0 → s.branch_percent = 100) := by
  refine ⟨fun h => ?_, fun h => ?_, fun h => ?_⟩ <;>
    simp [CoverageSummary.line_percent, CoverageSummary.function_percent,
      CoverageSummary.branch_percent, h]

/-- Witness for C7 at a concrete summary whose totals are all zero. -/
theorem percent_vacuous_full_witness :
    ({ total_lines := 0, covered_lines := 5, total_functions := 0
       covered_functions := 2, total_branches := 0, covered_branches := 1 } :
        CoverageSummary).total_lines = 0 ∧
    ({ total_lines := 0, covered_lines := 5, total_functions := 0
       covered_functions := 2, total_branches := 0, covered_branches := 1 } :
        CoverageSummary).line_percent = 100 ∧
    ({ total_lines := 0, covered_lines := 5, total_functions := 0
       covered_functions := 2, total_branches := 0, covered_branches := 1 } :
        CoverageSummary).function_percent = 100 ∧
    ({ total_lines := 0, covered_lines := 5, total_functions := 0
       covered_functions := 2, total_branches := 0, covered_branches := 1 } :
        CoverageSummary).branch_percent = 100 :=
  ⟨rfl, (percent_vacuous_full _).1 rfl, (percent_vacuous_full _).2.1 rfl,
    (percent_vacuous_full _).2.2 rfl⟩

/-- **C8.** `CoverageGuard::new` captures the prior flag and force-enables
without touching the data; `drop` leaves the flag at
`was_enabled && current` — that is, it disables exactly when collection was
not enabled at construction time and never enables; `new_fresh` resets the
current context's data before enabling. -/
theorem coverage_guard_semantics (s t : CollectorState) (g : CoverageGuard)
    (now : Nat) :
    (CoverageGuard.new s).1.was_enabled = s.enabled ∧
    (CoverageGuard.new s).2.enabled = true ∧
    (CoverageGuard.new s).2.data = s.data ∧
    (g.drop t).enabled = (g.was_enabled && t.enabled) ∧
    (g.drop t).data = t.data ∧
    (CoverageGuard.new_fresh now s).1.was_enabled = s.enabled ∧
    (CoverageGuard.new_fresh now s).2.enabled = true ∧
    (CoverageGuard.new_fresh now s).2.data = s.data.reset now := by
  refine ⟨rfl, rfl, rfl, ?_, ?_, rfl, rfl, rfl⟩ <;>
    cases hg : g.was_enabled <;>
      simp [CoverageGuard.drop, Collector.disable, hg]

/-! ## C3: exact counts through the collector -/

/-- **C3.** Starting from an enabled collector whose current context has not
yet seen probe `p`, recording `p` `n ≥ 1` times and exporting yields
`get_hit_count p = n`; any probe never recorded still reads 0 after export. -/
theorem recorded_counts_exact (s : CollectorState) (p k n now : Nat)
    (_hn : 1 ≤ n) (he : s.enabled = true)
    (h0 : s.data.get_hit_count p = 0) :
    ((Collector.export_coverage now
        (Collector.recordN p k n s)).1).get_hit_count p = n ∧
    ∀ q, q ≠ p → s.data.get_hit_count q = 0 →
      ((Collector.export_coverage now
          (Collector.recordN p k n s)).1).get_hit_count q = 0 := by
  obtain ⟨-, h2, h3⟩ := recordN_enabled p k n s he
  constructor
  · rw [Collector.export_coverage]
    rw [get_hit_count_finish, h2, h0]
    omega
  · intro q hq hq0
    rw [Collector.export_coverage]
    rw [get_hit_count_finish, h3 q hq, hq0]

/-- Witness for C3: two hits on probe 5 from a fresh enabled collector. -/
theorem recorded_counts_exact_witness :
    (1 ≤ 2 ∧ ({ enabled := true, data := CoverageData.new 0 } :
        CollectorState).enabled = true) ∧
    ((Collector.export_coverage 9 (Collector.recordN 5 0 2
        { enabled := true, data := CoverageData.new 0 })).1).get_hit_count 5
      = 2 ∧
    ((Collector.export_coverage 9 (Collector.recordN 5 0 2
        { enabled := true, data := CoverageData.new 0 })).1).get_hit_count 7
      = 0 :=
  ⟨⟨by omega, rfl⟩,
   (recorded_counts_exact { enabled := true, data := CoverageData.new 0 }
     5 0 2 9 (by omega) rfl rfl).1,
   (recorded_counts_exact { enabled := true, data := CoverageData.new 0 }
     5 0 2 9 (by omega) rfl rfl).2 7 (by omega) rfl⟩

/-! ## C6: summary aggregation -/

/-- Closed form of the left fold used by `aggregate_summaries`. -/
theorem foldl_merge_counters (reports : List CoverageReport)
    (acc : CoverageSummary) :
    reports.foldl (fun a r => a.merge r.summary) acc =
      { total_lines :=
          acc.total_lines + (reports.map (fun r => r.summary.total_lines)).sum
        covered_lines :=
          acc.covered_lines + (reports.map (fun r => r.summary.covered_lines)).sum
        total_functions :=
          acc.total_functions + (reports.map (fun r => r.summary.total_functions)).sum
        covered_functions :=
          acc.covered_functions + (reports.map (fun r => r.summary.covered_functions)).sum
        total_branches :=
          acc.total_branches + (reports.map (fun r => r.summary.total_branches)).sum
        covered_branches :=
          acc.covered_branches + (reports.map (fun r => r.summary.covered_branches)).sum } := by
  induction reports generalizing acc with
  | nil => simp
  | cons r rs ih =>
    rw [List.foldl_cons, ih]
    simp [CoverageSummary.merge, CoverageSummary.mk.injEq]
    omega

/-- The aggregate of a list of reports, field by field. -/
theorem aggregate_summaries_eq (reports : List CoverageReport) :
    aggregate_summaries reports =
      { total_lines := (reports.map (fun r => r.summary.total_lines)).sum
        covered_lines := (reports.map (fun r => r.summary.covered_lines)).sum
        total_functions := (reports.map (fun r => r.summary.total_functions)).sum
        covered_functions := (reports.map (fun r => r.summary.covered_functions)).sum
        total_branches := (reports.map (fun r => r.summary.total_branches)).sum
        covered_branches := (reports.map (fun r => r.summary.covered_branches)).sum } := by
  rw [aggregate_summaries, foldl_merge_counters]
  simp [CoverageSummary.default]

/-- **C6.** `CoverageSummary::merge` adds all six counters field-wise,
`aggregate_summaries` folds summaries left-to-right with it, so every
counter of the aggregate is the sum of that counter over the reports, and
the combined percentage is recomputed from the summed counters (never an
average of per-file percentages). -/
theorem aggregate_summaries_sums (reports : List CoverageReport)
    (a b : CoverageSummary) :
    (a.merge b).total_lines = a.total_lines + b.total_lines ∧
    (a.merge b).covered_lines = a.covered_lines + b.covered_lines ∧
    (a.merge b).total_functions = a.total_functions + b.total_functions ∧
    (a.merge b).covered_functions = a.covered_functions + b.covered_functions ∧
    (a.merge b).total_branches = a.total_branches + b.total_branches ∧
    (a.merge b).covered_branches = a.covered_branches + b.covered_branches ∧
    (aggregate_summaries reports).total_lines
      = (reports.map (fun r => r.summary.total_lines)).sum ∧
    (aggregate_summaries reports).covered_lines
      = (reports.map (fun r => r.summary.covered_lines)).sum ∧
    (aggregate_summaries reports).total_functions
      = (reports.map (fun r => r.summary.total_functions)).sum ∧
    (aggregate_summaries reports).covered_functions
      = (reports.map (fun r => r.summary.covered_functions)).sum ∧
    (aggregate_summaries reports).total_branches
      = (reports.map (fun r => r.summary.total_branches)).sum ∧
    (aggregate_summaries reports).covered_branches
      = (reports.map (fun r => r.summary.covered_branches)).sum ∧
    (aggregate_summaries reports).line_percent
      = (if (reports.map (fun r => r.summary.total_lines)).sum = 0 then 100
         else (Nat.cast ((reports.map (fun r => r.summary.covered_lines)).sum) : ℚ)
                / (Nat.cast ((reports.map (fun r => r.summary.total_lines)).sum) : ℚ)
                * 100) := by
  rw [aggregate_summaries_eq]
  exact ⟨rfl, rfl, rfl, rfl, rfl, rfl, rfl, rfl, rfl, rfl, rfl, rfl, rfl⟩

/-! ## C1: positional branch pairing depends on `HashMap` iteration order -/

/-- **C1.** The claim requires branch probes to be enumerated in a stable,
insertion-preserving order, but the source pairs them positionally after
filtering a key-unordered `HashMap`.  `braMapA` and `braMapB` hold the
identical probe entries (a permutation — the same `HashMap` content under
two iteration orders Rust is free to produce), yet the synthesized reports
differ: under order A, hit probes 1 and 3 pair into one fully covered
branch; under order B, the same hits land in different pairs and no branch
is fully covered.  This confirms the behaviour the spec flags as a latent
bug (§9). -/
theorem branch_pairing_order_dependent :
    braMapA.probes.Perm braMapB.probes ∧
    CoverageReport.from_map_and_data braMapA braData ≠
      CoverageReport.from_map_and_data braMapB braData := by
  constructor
  · decide
  · decide

/-! ## C2: per-line maximum for line coverage -/

/-- Lookup after one `updMax` step. -/
theorem assocLookup_updMax (acc : List (Nat × Nat)) (l line count : Nat) :
    assocLookup (updMax acc l count) line =
      if l = line then
        some (match assocLookup acc line with
              | some c => max c count
              | none => count)
      else assocLookup acc line := by
  induction acc with
  | nil =>
    by_cases h : l = line <;> simp [updMax, assocLookup, h]
  | cons hd tl ih =>
    obtain ⟨k, c⟩ := hd
    by_cases hkl : k = l
    · subst hkl
      by_cases hl : k = line <;> simp [updMax, assocLookup, hl]
    · by_cases hk : k = line
      · subst hk
        have hl : ¬ l = k := fun hh => hkl hh.symm
        simp [updMax, assocLookup, hkl, hl]
      · simp [updMax, assocLookup, hkl, hk, ih]

/-- Unfolding one step of `foldMaxAt`. -/
theorem foldMaxAt_cons (d : CoverageData) (line : Nat)
    (p : Nat × ProbeLocation) (ps : List (Nat × ProbeLocation))
    (v : Option Nat) :
    foldMaxAt d line (p :: ps) v
      = foldMaxAt d line ps
          (if p.2.line = line then
             some (match v with
                   | some c => max c (d.get_hit_count p.1)
                   | none => d.get_hit_count p.1)
           else v) := rfl

/-- Lookup through the whole `line_hits` fold, as a `foldMaxAt`. -/
theorem assocLookup_lineFold (d : CoverageData) (line : Nat)
    (ps : List (Nat × ProbeLocation)) (acc : List (Nat × Nat)) :
    assocLookup
        (ps.foldl (fun a p => updMax a p.2.line (d.get_hit_count p.1)) acc)
        line
      = foldMaxAt d line ps (assocLookup acc line) := by
  induction ps generalizing acc with
  | nil => simp [foldMaxAt]
  | cons p ps ih =>
    rw [List.foldl_cons, ih, foldMaxAt_cons]
    exact congrArg (foldMaxAt d line ps)
      (assocLookup_updMax acc p.2.line line (d.get_hit_count p.1))

/-- Closed form of `foldMaxAt` from a `some` seed. -/
theorem foldMaxAt_some (d : CoverageData) (line : Nat)
    (ps : List (Nat × ProbeLocation)) (c : Nat) :
    foldMaxAt d line ps (some c)
      = some (((ps.filter (fun p => p.2.line == line)).map
          (fun p => d.get_hit_count p.1)).foldl max c) := by
  induction ps generalizing c with
  | nil => simp [foldMaxAt]
  | cons p ps ih =>
    rw [foldMaxAt_cons]
    by_cases h : p.2.line = line
    · rw [if_pos h]
      show foldMaxAt d line ps (some (max c (d.get_hit_count p.1))) = _
      rw [ih, List.filter_cons]
      simp [h]
    · rw [if_neg h, ih, List.filter_cons]
      simp [h]

/-- Closed form of `foldMaxAt` from the empty seed. -/
theorem foldMaxAt_none (d : CoverageData) (line : Nat)
    (ps : List (Nat × ProbeLocation)) :
    foldMaxAt d line ps none
      = match (ps.filter (fun p => p.2.line == line)).map
            (fun p => d.get_hit_count p.1) with
        | [] => none
        | c :: cs => some (cs.foldl max c) := by
  induction ps with
  | nil => simp [foldMaxAt]
  | cons p ps ih =>
    rw [foldMaxAt_cons]
    by_cases h : p.2.line = line
    · rw [if_pos h]
      show foldMaxAt d line ps (some (d.get_hit_count p.1)) = _
      rw [foldMaxAt_some, List.filter_cons]
      simp [h]
    · rw [if_neg h, ih, List.filter_cons]
      simp [h]

theorem foldl_max_eq_listMax (cs : List Nat) (c : Nat) :
    cs.foldl max c = max c (listMax cs) := by
  induction cs generalizing c with
  | nil => simp [listMax]
  | cons x xs ih =>
    rw [List.foldl_cons, ih]
    simp [listMax, List.foldr_cons, Nat.max_assoc]

/-- Lookup commutes with the key-preserving entry map building
`report.lines`. -/
theorem assocLookup_map_pair {α β : Type} (f : Nat → α → β)
    (xs : List (Nat × α)) (key : Nat) :
    assocLookup (xs.map (fun x => (x.1, f x.1 x.2))) key
      = (assocLookup xs key).map (f key) := by
  induction xs with
  | nil => rfl
  | cons x xs ih =>
    by_cases h : x.1 = key <;> simp [assocLookup, h, ih]

/-- **C2.** For every line carrying at least one `Line` probe, the report's
`hit_count` is the maximum (not the sum) of the data's counts over the Line
probes of that line (absent probes reading 0 through `get_hit_count`), and
the line is covered iff that maximum is positive.  The statement quantifies
over all probe iteration orders. -/
theorem line_hit_is_max (m : CoverageMap) (d : CoverageData) (line : Nat)
    (h : ∃ p ∈ m.probes, p.2.kind = probe_kind.LINE ∧ p.2.line = line) :
    (CoverageReport.from_map_and_data m d).line_hit_count line
      = some (listMax (lineCounts m d line)) ∧
    (CoverageReport.from_map_and_data m d).is_line_covered line
      = some (decide (0 < listMax (lineCounts m d line))) := by
  have hlines : (CoverageReport.from_map_and_data m d).lines
      = (lineHits m d).map (fun lc => (lc.1,
          { line := lc.1, hit_count := lc.2
            covered := decide (lc.2 > 0) : LineCoverage })) := rfl
  have hlook : assocLookup (lineHits m d) line
      = some (listMax (lineCounts m d line)) := by
    rw [lineHits, assocLookup_lineFold]
    show foldMaxAt d line m.line_probes none = _
    rw [foldMaxAt_none]
    obtain ⟨p, hp, hkind, hline⟩ := h
    have hmem : p ∈ m.line_probes.filter (fun q => q.2.line == line) := by
      simp [CoverageMap.line_probes, List.mem_filter, hp, hkind, hline]
    have hne : (m.line_probes.filter (fun q => q.2.line == line)).map
        (fun q => d.get_hit_count q.1) ≠ [] := by
      simp only [ne_eq, List.map_eq_nil_iff]
      intro hnil
      rw [hnil] at hmem
      exact List.not_mem_nil p hmem
    rw [lineCounts]
    rcases hcs : (m.line_probes.filter (fun q => q.2.line == line)).map
        (fun q => d.get_hit_count q.1) with - | ⟨c, cs⟩
    · exact absurd hcs hne
    · rw [hcs]
      simp [listMax, foldl_max_eq_listMax]
  constructor
  · rw [CoverageReport.line_hit_count, hlines,
      assocLookup_map_pair (fun l c =>
        ({ line := l, hit_count := c, covered := decide (c > 0) } :
          LineCoverage)), hlook]
    rfl
  · rw [CoverageReport.is_line_covered, hlines,
      assocLookup_map_pair (fun l c =>
        ({ line := l, hit_count := c, covered := decide (c > 0) } :
          LineCoverage)), hlook]
    rfl

/-- Witness for C2: line 4 of `wLineMap` carries two Line probes with
counts 2 and 5; the report shows 5, not 7. -/
theorem line_hit_is_max_witness :
    (∃ p ∈ wLineMap.probes, p.2.kind = probe_kind.LINE ∧ p.2.line = 4) ∧
    (CoverageReport.from_map_and_data wLineMap wLineData).line_hit_count 4
      = some 5 ∧
    (CoverageReport.from_map_and_data wLineMap wLineData).is_line_covered 4
      = some true := by
  have h := line_hit_is_max wLineMap wLineData 4 (by decide)
  exact ⟨by decide, h.1.trans (by decide), h.2.trans (by decide)⟩

/-! ## C10: one branch entry per true probe -/

/-- `pairBranches` emits exactly one entry per true probe. -/
theorem pairBranches_length (d : CoverageData) (line : Nat)
    (fps : List (Nat × Nat)) (tps : List (Nat × Nat)) (idx : Nat) :
    (pairBranches d line fps tps idx).length = tps.length := by
  induction tps generalizing idx with
  | nil => rfl
  | cons tp tps ih => simp [pairBranches, ih]

/-- Every entry emitted by `pairBranches` carries the group's line. -/
theorem pairBranches_line (d : CoverageData) (line : Nat)
    (fps : List (Nat × Nat)) (tps : List (Nat × Nat)) (idx : Nat)
    (b : BranchCoverage) (hb : b ∈ pairBranches d line fps tps idx) :
    b.line = line := by
  induction tps generalizing idx with
  | nil => simp [pairBranches] at hb
  | cons tp tps ih =>
    rw [pairBranches] at hb
    simp only [List.mem_cons] at hb
    rcases hb with rfl | hb
    · rfl
    · exact ih _ hb

/-- Filtering the flattened branch list on a line counts the true probes
stored under that key. -/
theorem branchList_filter_length (d : CoverageData) (line : Nat)
    (groups : List (Nat × List (Nat × Nat))) :
    ((branchList d groups).filter (fun b => b.line == line)).length
      = trueCountAt line groups := by
  induction groups with
  | nil => rfl
  | cons g rest ih =>
    obtain ⟨l, probes⟩ := g
    rw [branchList, List.filter_append, List.length_append, ih, trueCountAt]
    by_cases h : l = line
    · subst h
      have hall : ∀ b ∈ branchesForLine d l probes, (b.line == l) = true := by
        intro b hb
        simp [pairBranches_line d l _ _ 0 b hb]
      rw [List.filter_eq_self.mpr hall, branchesForLine, pairBranches_length]
      simp
    · have hnone : ∀ b ∈ branchesForLine d l probes, ¬ (b.line == line) = true := by
        intro b hb
        simp [pairBranches_line d l _ _ 0 b hb, h]
      rw [List.filter_eq_nil_iff.mpr hnone]
      simp [h]

/-- Effect of one `pushEntry` on the per-line true-probe count. -/
theorem trueCountAt_pushEntry (acc : List (Nat × List (Nat × Nat)))
    (l line : Nat) (x : Nat × Nat) :
    trueCountAt line (pushEntry acc l x)
      = trueCountAt line acc
        + (if l = line ∧ x.2 = probe_kind.BRANCH_TRUE then 1 else 0) := by
  induction acc with
  | nil =>
    simp only [pushEntry, trueCountAt]
    by_cases h : l = line
    · by_cases hx : x.2 = probe_kind.BRANCH_TRUE <;>
        simp [h, hx, List.filter_cons, beq_iff_eq]
    · simp [h]
  | cons g rest ih =>
    obtain ⟨k, grp⟩ := g
    by_cases hkl : k = l
    · subst hkl
      simp only [pushEntry, if_pos rfl, trueCountAt, List.filter_append,
        List.length_append]
      by_cases h : k = line
      · by_cases hx : x.2 = probe_kind.BRANCH_TRUE <;>
          simp [h, hx, List.filter_cons, beq_iff_eq] <;> omega
      · simp [h]
    · simp only [pushEntry, if_neg hkl, trueCountAt, ih]
      omega

/-- The grouping fold preserves the per-line true-probe count. -/
theorem trueCountAt_branchFold (line : Nat)
    (ps : List (Nat × ProbeLocation))
    (acc : List (Nat × List (Nat × Nat))) :
    trueCountAt line
        (ps.foldl (fun a p => pushEntry a p.2.line (p.1, p.2.kind)) acc)
      = trueCountAt line acc
        + (ps.filter (fun p =>
            p.2.kind == probe_kind.BRANCH_TRUE && p.2.line == line)).length := by
  induction ps generalizing acc with
  | nil => simp
  | cons p ps ih =>
    rw [List.foldl_cons, ih, trueCountAt_pushEntry, List.filter_cons]
    by_cases h1 : p.2.line = line <;>
      by_cases h2 : p.2.kind = probe_kind.BRANCH_TRUE <;>
        simp [h1, h2] <;> omega

/-- Restricting to true probes, filtering the branch-probe view equals
filtering all probes. -/
theorem filter_true_branch_probes (m : CoverageMap) (q : Nat × ProbeLocation → Bool)
    (hq : ∀ p, q p = true → p.2.kind = probe_kind.BRANCH_TRUE) :
    m.branch_probes.filter q = m.probes.filter q := by
  rw [CoverageMap.branch_probes, List.filter_filter]
  apply List.filter_congr
  intro p _
  cases hqp : q p
  · simp
  · simp [hq p hqp]

/-- The flattened branch list is as long as the grouping's true count. -/
theorem branchList_length (d : CoverageData)
    (groups : List (Nat × List (Nat × Nat))) :
    (branchList d groups).length = trueCountTotal groups := by
  induction groups with
  | nil => rfl
  | cons g rest ih =>
    obtain ⟨l, probes⟩ := g
    rw [branchList, List.length_append, ih, trueCountTotal,
      branchesForLine, pairBranches_length]

/-- Effect of one `pushEntry` on the total true-probe count. -/
theorem trueCountTotal_pushEntry (acc : List (Nat × List (Nat × Nat)))
    (l : Nat) (x : Nat × Nat) :
    trueCountTotal (pushEntry acc l x)
      = trueCountTotal acc
        + (if x.2 = probe_kind.BRANCH_TRUE then 1 else 0) := by
  induction acc with
  | nil =>
    simp only [pushEntry, trueCountTotal]
    by_cases hx : x.2 = probe_kind.BRANCH_TRUE <;>
      simp [hx, List.filter_cons, beq_iff_eq]
  | cons g rest ih =>
    obtain ⟨k, grp⟩ := g
    by_cases hkl : k = l
    · subst hkl
      simp only [pushEntry, if_pos rfl, trueCountTotal, List.filter_append,
        List.length_append]
      by_cases hx : x.2 = probe_kind.BRANCH_TRUE <;>
        simp [hx, List.filter_cons, beq_iff_eq] <;> omega
    · simp only [pushEntry, if_neg hkl, trueCountTotal, ih]
      omega

/-- The grouping fold preserves the total true-probe count. -/
theorem trueCountTotal_branchFold (ps : List (Nat × ProbeLocation))
    (acc : List (Nat × List (Nat × Nat))) :
    trueCountTotal
        (ps.foldl (fun a p => pushEntry a p.2.line (p.1, p.2.kind)) acc)
      = trueCountTotal acc
        + (ps.filter (fun p => p.2.kind == probe_kind.BRANCH_TRUE)).length := by
  induction ps generalizing acc with
  | nil => simp
  | cons p ps ih =>
    rw [List.foldl_cons, ih, trueCountTotal_pushEntry, List.filter_cons]
    by_cases h2 : p.2.kind = probe_kind.BRANCH_TRUE <;> simp [h2] <;> omega

/-- **C10.** Per line, the report holds exactly one `BranchCoverage` entry
per `BranchTrue` probe of that line: a `BranchFalse` probe with no
positional `BranchTrue` partner yields no entry at all, and
`total_branches` counts only the true probes, so such dropped probes are
excluded from it. -/
theorem branch_entries_per_true_probe (m : CoverageMap) (d : CoverageData)
    (line : Nat) :
    ((CoverageReport.from_map_and_data m d).branches.filter
        (fun b => b.line == line)).length
      = (m.probes.filter (fun p =>
          p.2.kind == probe_kind.BRANCH_TRUE && p.2.line == line)).length ∧
    (CoverageReport.from_map_and_data m d).summary.total_branches
      = (m.probes.filter
          (fun p => p.2.kind == probe_kind.BRANCH_TRUE)).length := by
  constructor
  · have hb : (CoverageReport.from_map_and_data m d).branches
        = branchList d (branchMap m) := rfl
    rw [hb, branchList_filter_length, branchMap, trueCountAt_branchFold,
      filter_true_branch_probes m
        (fun p => p.2.kind == probe_kind.BRANCH_TRUE && p.2.line == line)
        (by
          intro p hp
          rw [Bool.and_eq_true] at hp
          exact eq_of_beq hp.1)]
    simp [trueCountAt]
  · have hs : (CoverageReport.from_map_and_data m d).summary.total_branches
        = (branchList d (branchMap m)).length := rfl
    rw [hs, branchList_length, branchMap, trueCountTotal_branchFold,
      filter_true_branch_probes m
        (fun p => p.2.kind == probe_kind.BRANCH_TRUE)
        (fun p hp => eq_of_beq hp)]
    simp [trueCountTotal]

/-! ## C9: JSON round-trip -/

/-- `charDigit` inverts `digitChar` on digits. -/
theorem charDigit_digitChar (d : Nat) (h : d < 10) :
    charDigit (digitChar d) = some d := by
  interval_cases d <;> decide

/-- Decoding a list whose every element encodes successfully. -/
theorem mapMOpt_roundtrip {α β : Type} (f : β → Option α) (g : α → β)
    (xs : List α) (h : ∀ x ∈ xs, f (g x) = some x) :
    natParse.mapMOpt f (xs.map g) = some xs := by
  induction xs with
  | nil => rfl
  | cons x xs ih =>
    simp only [List.map_cons, natParse.mapMOpt]
    rw [h x (List.mem_cons_self x xs),
      ih (fun y hy => h y (List.mem_cons_of_mem x hy))]

/-- Parsing inverts the decimal rendering of a probe id. -/
theorem natParse_natRepr (n : Nat) : natParse (natRepr n) = some n := by
  by_cases h : n = 0
  · subst h
    decide
  · rw [natRepr, if_neg h]
    have hdig : ∀ d ∈ (Nat.digits 10 n).reverse, d < 10 := fun d hd =>
      Nat.digits_lt_base (by norm_num) (List.mem_reverse.mp hd)
    have hne : (((Nat.digits 10 n).map digitChar).reverse : List Char) ≠ [] := by
      simp only [ne_eq, List.reverse_eq_nil_iff, List.map_eq_nil_iff]
      exact Nat.digits_ne_nil_iff_ne_zero.mpr h
    show (if (((Nat.digits 10 n).map digitChar).reverse : List Char) = []
          then none
          else (natParse.mapMOpt charDigit
              (((Nat.digits 10 n).map digitChar).reverse)).map
            (fun ds => Nat.ofDigits 10 ds.reverse)) = some n
    rw [if_neg hne, ← List.map_reverse,
      mapMOpt_roundtrip charDigit digitChar (Nat.digits 10 n).reverse
        (fun d hd => charDigit_digitChar d (hdig d hd)),
      Option.map_some', List.reverse_reverse, Nat.ofDigits_digits]

/-- Parsing inverts serialization for one probe location. -/
theorem probeLocation_fromJson_toJson (loc : ProbeLocation) :
    ProbeLocation.fromJson loc.toJson = some loc := by
  obtain ⟨line, column, kind, f, file⟩ := loc
  cases f <;> rfl

/-- Parsing inverts serialization for one function entry. -/
theorem functionInfo_fromJson_toJson (f : FunctionInfo) :
    FunctionInfo.fromJson f.toJson = some f := by
  obtain ⟨name, s, e, ep⟩ := f
  rfl

/-- **C9.** Parsing the serialization of any coverage map succeeds and
returns the map itself — in particular the same `file`, the same
`total_probes`, exactly the same probe entries and the same function
list. -/
theorem map_json_roundtrip (m : CoverageMap) :
    CoverageMap.from_json m.to_json = some m := by
  obtain ⟨probes, functions, file, total⟩ := m
  simp only [CoverageMap.to_json, CoverageMap.from_json]
  rw [mapMOpt_roundtrip
      (fun kv =>
        match natParse kv.1, ProbeLocation.fromJson kv.2 with
        | some id, some loc => some (id, loc)
        | _, _ => none)
      (fun p => (natRepr p.1, p.2.toJson)) probes
      (fun p _ => by
        simp [natParse_natRepr, probeLocation_fromJson_toJson]),
    mapMOpt_roundtrip FunctionInfo.fromJson FunctionInfo.toJson functions
      (fun f _ => functionInfo_fromJson_toJson f)]
